import Mathlib

/-!
# Reconcile loop of the NewResource controller

Shallow embedding of `controllers/resource_controller.go` and
`controllers/metrics.go`.

* The package-level metric vectors of `metrics.go` are fields of an explicit
  `Metrics` record that is threaded through `Reconcile`.
* The embedded `client.Client`, the cluster behind it and the wall clock are
  external to the repository.  They are a parameter: a record of
  state-passing functions over an arbitrary world type `W`.
* Counter values are natural numbers and gauge values are integers (the
  Prometheus client stores them as 64-bit words; saturation of those words is
  outside this development).  A histogram child keeps the list of its
  observations, in nanoseconds of elapsed time.
-/

namespace K8sMaster

/-! ## Metric vectors (`metrics.go`) -/

/-- The label values that select one child of a metric vector. -/
abbrev Labels := List String

/-- A metric vector: one child per tuple of label values, created on first use. -/
abbrev MetricVec (α : Type) := List (Labels × α)

namespace MetricVec

variable {α : Type}

/-- The child stored under `lvs`, if it has been created. -/
def child : MetricVec α → Labels → Option α
  | [], _ => none
  | (k, v) :: rest, lvs => if k = lvs then some v else child rest lvs

/-- The call `WithLabelValues(lvs...)` followed by an operation `f` on the child:
the child is created with the value `zero` when it does not exist yet. -/
def withLabelValues (zero : α) (f : α → α) : MetricVec α → Labels → MetricVec α
  | [], lvs => [(lvs, f zero)]
  | (k, v) :: rest, lvs =>
    if k = lvs then (k, f v) :: rest else (k, v) :: withLabelValues zero f rest lvs

end MetricVec

/-- Counter vector (`prometheus.CounterVec`). -/
abbrev CounterVec := MetricVec Nat

/-- Gauge vector (`prometheus.GaugeVec`). -/
abbrev GaugeVec := MetricVec Int

/-- Histogram vector (`prometheus.HistogramVec`): each child keeps its observations. -/
abbrev HistogramVec := MetricVec (List Int)

/-- The call `c.WithLabelValues(lvs...).Inc()` on a counter vector. -/
def CounterVec.Inc (c : CounterVec) (lvs : Labels) : CounterVec :=
  MetricVec.withLabelValues 0 (· + 1) c lvs

/-- Current value of the counter child `lvs` (0 when it was never touched). -/
def CounterVec.value (c : CounterVec) (lvs : Labels) : Nat :=
  (MetricVec.child c lvs).getD 0

/-- Sum of a counter vector over all its children. -/
def CounterVec.total (c : CounterVec) : Nat :=
  (c.map Prod.snd).sum

/-- The call `g.WithLabelValues(lvs...).Inc()` on a gauge vector. -/
def GaugeVec.Inc (g : GaugeVec) (lvs : Labels) : GaugeVec :=
  MetricVec.withLabelValues 0 (· + 1) g lvs

/-- Current value of the gauge child `lvs` (0 when it was never touched). -/
def GaugeVec.value (g : GaugeVec) (lvs : Labels) : Int :=
  (MetricVec.child g lvs).getD 0

/-- Sum of a gauge vector over all its children. -/
def GaugeVec.total (g : GaugeVec) : Int :=
  (g.map Prod.snd).sum

/-- The call `h.WithLabelValues(lvs...).Observe(d)` on a histogram vector. -/
def HistogramVec.Observe (h : HistogramVec) (lvs : Labels) (d : Int) : HistogramVec :=
  MetricVec.withLabelValues [] (· ++ [d]) h lvs

/-- Observations recorded so far in the histogram child `lvs`. -/
def HistogramVec.observations (h : HistogramVec) (lvs : Labels) : List Int :=
  (MetricVec.child h lvs).getD []

/-- Number of observations recorded so far in the histogram child `lvs`. -/
def HistogramVec.count (h : HistogramVec) (lvs : Labels) : Nat :=
  (HistogramVec.observations h lvs).length

/-- The four package-level metric vectors declared in `metrics.go`. -/
structure Metrics where
  /-- Vector `newresource_reconcile_total`, labels `controller`, `result`. -/
  ReconcileTotal : CounterVec
  /-- Vector `newresource_reconcile_duration_seconds`, label `controller`. -/
  ReconcileDuration : HistogramVec
  /-- Vector `newresource_reconcile_errors_total`, labels `controller`, `error_type`. -/
  ReconcileErrors : CounterVec
  /-- Vector `newresource_resources_ready`, label `namespace`. -/
  ResourcesReady : GaugeVec

/-! ## Objects and the collaborator -/

/-- Key of an object (`types.NamespacedName`). -/
structure NamespacedName where
  Namespace : String
  Name : String
deriving DecidableEq

/-- Request handed to the reconciler (`ctrl.Request`). -/
structure Request where
  NamespacedName : NamespacedName
deriving DecidableEq

/-- Return value of the reconciler (`ctrl.Result`); `ctrl.Result{}` is `Result.empty`. -/
structure Result where
  Requeue : Bool
  RequeueAfter : Int
deriving DecidableEq

/-- The zero value `ctrl.Result{}`: no requeue. -/
def Result.empty : Result := ⟨false, 0⟩

/-- Modelled from the spec: the status of a `NewResource`. Its declaration
(package `api/v1alpha1`) is not among the sources; `Reconcile` uses the field
`Ready`, and `τ` stands for whatever other status fields there are. -/
structure NewResourceStatus (τ : Type) where
  Ready : Bool
  Rest : τ
deriving DecidableEq

/-- Modelled from the spec: the managed resource `NewResource`. Its declaration
(package `api/v1alpha1`) is not among the sources; `Reconcile` uses `Name`,
`Namespace` and `Status.Ready`, the spec names `Spec`. The type `σ` is the
desired state, `μ` the remaining metadata. -/
structure NewResource (μ σ τ : Type) where
  Name : String
  Namespace : String
  Meta : μ
  Spec : σ
  Status : NewResourceStatus τ
deriving DecidableEq

/-- The assignment `resource.Status.Ready = true`. -/
def NewResource.markReady {μ σ τ : Type} (r : NewResource μ σ τ) : NewResource μ σ τ :=
  { r with Status := { r.Status with Ready := true } }

/-- The embedded `client.Client` as far as `Reconcile` uses it, over a world `W`
(the cluster as the client sees it) and an error type `ε`.

* `Get key` fills the object or fails.
* `StatusUpdate obj` is `Status().Update(ctx, &obj)`: it fails, or succeeds and
  writes the stored object back through the pointer.
* `IsNotFound` is the classification behind `client.IgnoreNotFound`. -/
structure Client (W ε μ σ τ : Type) where
  Get : NamespacedName → W → Except ε (NewResource μ σ τ) × W
  StatusUpdate : NewResource μ σ τ → W → Except ε (NewResource μ σ τ) × W
  IsNotFound : ε → Bool

/-- The reconciler: a struct that embeds the client. -/
structure NewResourceReconciler (W ε μ σ τ : Type) extends Client W ε μ σ τ

/-- The function `client.IgnoreNotFound`: nil for a not-found error, the error itself
otherwise. -/
def IgnoreNotFound {ε : Type} (isNotFound : ε → Bool) (err : ε) : Option ε :=
  if isNotFound err then none else some err

/-- One call made on the collaborator. -/
inductive Call (μ σ τ : Type) where
  | Get (key : NamespacedName)
  | StatusUpdate (obj : NewResource μ σ τ)
deriving DecidableEq

/-- A line written by `logger.Info`: the message and its key/value pairs. -/
structure LogLine where
  Msg : String
  KeysAndValues : List (String × String)
deriving DecidableEq

/-- Everything `Reconcile` reads or writes besides its arguments: the world of
the collaborator, the metric vectors, the log, and the record of the calls made
on the collaborator (in call order). -/
structure State (W μ σ τ : Type) where
  World : W
  Metrics : Metrics
  Log : List LogLine
  Calls : List (Call μ σ τ)

variable {W ε μ σ τ : Type}

/-! ## `Reconcile` (`resource_controller.go`) -/

/-- Lines 29-57 of `resource_controller.go`: the body of `Reconcile` without the
deferred function. Returns the pair `(ctrl.Result, error)` and the state. -/
def reconcileBody (r : NewResourceReconciler W ε μ σ τ) (req : Request)
    (s : State W μ σ τ) : (Result × Option ε) × State W μ σ τ :=
  let got := r.Get req.NamespacedName s.World
  let s1 : State W μ σ τ :=
    { s with World := got.2, Calls := s.Calls ++ [Call.Get req.NamespacedName] }
  match got.1 with
  | Except.error err =>
    match IgnoreNotFound r.IsNotFound err with
    | some _ =>
      let m1 := { s1.Metrics with
        ReconcileErrors := s1.Metrics.ReconcileErrors.Inc ["newresource", "get_error"] }
      let m2 := { m1 with
        ReconcileTotal := m1.ReconcileTotal.Inc ["newresource", "error"] }
      ((Result.empty, some err), { s1 with Metrics := m2 })
    | none =>
      let m1 := { s1.Metrics with
        ReconcileTotal := s1.Metrics.ReconcileTotal.Inc ["newresource", "not_found"] }
      ((Result.empty, none), { s1 with Metrics := m1 })
  | Except.ok fetched =>
    let s2 : State W μ σ τ :=
      { s1 with Log := s1.Log ++
          [⟨"Reconciling", [("name", fetched.Name), ("namespace", fetched.Namespace)]⟩] }
    let resource := fetched.markReady
    let upd := r.StatusUpdate resource s2.World
    let s3 : State W μ σ τ :=
      { s2 with World := upd.2, Calls := s2.Calls ++ [Call.StatusUpdate resource] }
    match upd.1 with
    | Except.error err =>
      let m1 := { s3.Metrics with
        ReconcileErrors := s3.Metrics.ReconcileErrors.Inc ["newresource", "status_update_error"] }
      let m2 := { m1 with
        ReconcileTotal := m1.ReconcileTotal.Inc ["newresource", "error"] }
      ((Result.empty, some err), { s3 with Metrics := m2 })
    | Except.ok resource =>
      let m1 := { s3.Metrics with
        ResourcesReady := s3.Metrics.ResourcesReady.Inc [resource.Namespace] }
      let m2 := { m1 with
        ReconcileTotal := m1.ReconcileTotal.Inc ["newresource", "success"] }
      ((Result.empty, none), { s3 with Metrics := m2 })

/-- The method `NewResourceReconciler.Reconcile`. `now` reads the clock of the world
(`time.Now`); the deferred function runs after the body, on every return path,
and observes the time elapsed since `startTime`. -/
def Reconcile (now : W → Int) (r : NewResourceReconciler W ε μ σ τ) (req : Request)
    (s : State W μ σ τ) : (Result × Option ε) × State W μ σ τ :=
  let startTime := now s.World
  let out := reconcileBody r req s
  let duration := now out.2.World - startTime
  (out.1, { out.2 with Metrics := { out.2.Metrics with
    ReconcileDuration := out.2.Metrics.ReconcileDuration.Observe ["newresource"] duration } })

/-- A run of `Reconcile` over a sequence of requests, each invocation starting in
the state the previous one left. -/
def reconcileAll (now : W → Int) (r : NewResourceReconciler W ε μ σ τ) :
    List Request → State W μ σ τ → State W μ σ τ
  | [], s => s
  | req :: rest, s => reconcileAll now r rest (Reconcile now r req s).2

/-! ## A store model of the collaborator

The cluster is a list of objects. `Get` returns the stored object with the
requested key, a successful status update replaces the stored object with the
object it is handed. Either operation can also be made to fail, as a function of
its argument. -/

/-- The key under which an object is stored. -/
def NewResource.key (x : NewResource μ σ τ) : NamespacedName :=
  ⟨x.Namespace, x.Name⟩

/-- Whether the object `x` is stored under `key`. -/
def hasKey (key : NamespacedName) (x : NewResource μ σ τ) : Bool :=
  decide (x.key = key)

/-- The objects of the cluster. -/
abbrev Store (μ σ τ : Type) := List (NewResource μ σ τ)

/-- The failures of the store: the error reported for an absent object, the
requests that fail for another reason, and which errors count as not-found. -/
structure Faults (ε μ σ τ : Type) where
  NotFound : ε
  GetFault : NamespacedName → Option ε
  UpdateFault : NewResource μ σ τ → Option ε
  IsNotFound : ε → Bool

/-- The operation `Get` on the store: the stored object with that key. The store is
not changed. -/
def storeGet (f : Faults ε μ σ τ) (key : NamespacedName) (st : Store μ σ τ) :
    Except ε (NewResource μ σ τ) × Store μ σ τ :=
  match f.GetFault key with
  | some e => (Except.error e, st)
  | none =>
    match st.find? (hasKey key) with
    | some x => (Except.ok x, st)
    | none => (Except.error f.NotFound, st)

/-- Put `obj` in the place of a stored object that has the same key. -/
def replaceWith (obj x : NewResource μ σ τ) : NewResource μ σ τ :=
  if hasKey obj.key x then obj else x

/-- Status update on the store: a successful update replaces the stored object
with `obj` and hands `obj` back; a failed one leaves the store as it is. -/
def storeStatusUpdate (f : Faults ε μ σ τ) (obj : NewResource μ σ τ) (st : Store μ σ τ) :
    Except ε (NewResource μ σ τ) × Store μ σ τ :=
  match f.UpdateFault obj with
  | some e => (Except.error e, st)
  | none =>
    if st.any (hasKey obj.key) then (Except.ok obj, st.map (replaceWith obj))
    else (Except.error f.NotFound, st)

/-- The reconciler whose client talks to the store model. -/
def storeReconciler (f : Faults ε μ σ τ) : NewResourceReconciler (Store μ σ τ) ε μ σ τ :=
  { Get := storeGet f
    StatusUpdate := storeStatusUpdate f
    IsNotFound := f.IsNotFound }

/-! ## A concrete cluster

Errors are strings, the spec of an object is a number, there is no further
metadata or status. -/

/-- Failures of the example cluster: fetching `broken` times out, updating
`locked` conflicts. -/
def exampleFaults : Faults String Unit Nat Unit :=
  { NotFound := "not found"
    GetFault := fun key => if key.Name = "broken" then some "timeout" else none
    UpdateFault := fun obj => if obj.Name = "locked" then some "conflict" else none
    IsNotFound := fun e => decide (e = "not found") }

/-- The stored object `default/foo`. -/
def exampleFoo : NewResource Unit Nat Unit :=
  { Name := "foo", Namespace := "default", Meta := (), Spec := 7,
    Status := { Ready := false, Rest := () } }

/-- The stored object `default/locked`. -/
def exampleLocked : NewResource Unit Nat Unit :=
  { Name := "locked", Namespace := "default", Meta := (), Spec := 3,
    Status := { Ready := false, Rest := () } }

/-- The reconciler of the example cluster. -/
def exampleReconciler : NewResourceReconciler (Store Unit Nat Unit) String Unit Nat Unit :=
  storeReconciler exampleFaults

/-- Clock of the example cluster. -/
def exampleNow : Store Unit Nat Unit → Int := fun st => st.length

/-- The example cluster at process start: two objects, no metric touched yet. -/
def exampleState : State (Store Unit Nat Unit) Unit Nat Unit :=
  { World := [exampleFoo, exampleLocked]
    Metrics := { ReconcileTotal := [], ReconcileDuration := [], ReconcileErrors := [],
                 ResourcesReady := [] }
    Log := []
    Calls := [] }

/-- Request for `default/foo`, which is stored. -/
def requestFoo : Request := ⟨⟨"default", "foo"⟩⟩

/-- Request for `default/gone`, which is not stored. -/
def requestGone : Request := ⟨⟨"default", "gone"⟩⟩

/-- Request for `default/broken`, whose fetch times out. -/
def requestBroken : Request := ⟨⟨"default", "broken"⟩⟩

/-- Request for `default/locked`, whose status update conflicts. -/
def requestLocked : Request := ⟨⟨"default", "locked"⟩⟩

/-- A reconciler over the example cluster whose status update hands the object
back under the namespace `rewritten`: the client writes through the pointer it
is given, and nothing in `Reconcile` restores the namespace afterwards. -/
def rewritingReconciler : NewResourceReconciler (Store Unit Nat Unit) String Unit Nat Unit :=
  { Get := storeGet exampleFaults
    StatusUpdate := fun obj st =>
      (Except.ok { obj with Namespace := "rewritten" }, st.map (replaceWith obj))
    IsNotFound := exampleFaults.IsNotFound }

/-! ## Lemmas on metric vectors -/

namespace MetricVec

variable {α : Type}

theorem child_withLabelValues_self (zero : α) (f : α → α) (m : MetricVec α) (lvs : Labels) :
    child (withLabelValues zero f m lvs) lvs = some (f ((child m lvs).getD zero)) := by
  induction m with
  | nil => simp [withLabelValues, child]
  | cons p rest ih =>
    obtain ⟨k, v⟩ := p
    by_cases hk : k = lvs
    · simp [withLabelValues, child, hk]
    · simp [withLabelValues, child, hk, ih]

theorem child_withLabelValues_ne (zero : α) (f : α → α) (m : MetricVec α) {lvs other : Labels}
    (hne : other ≠ lvs) :
    child (withLabelValues zero f m lvs) other = child m other := by
  induction m with
  | nil => simp [withLabelValues, child, Ne.symm hne]
  | cons p rest ih =>
    obtain ⟨k, v⟩ := p
    by_cases hk : k = lvs
    · subst hk
      simp [withLabelValues, child, Ne.symm hne]
    · by_cases hko : k = other
      · subst hko
        simp [withLabelValues, child, hk]
      · simp [withLabelValues, child, hk, hko, ih]

end MetricVec

theorem CounterVec.counter_value_Inc_self (c : CounterVec) (lvs : Labels) :
    (c.Inc lvs).value lvs = c.value lvs + 1 := by
  simp [CounterVec.Inc, CounterVec.value, MetricVec.child_withLabelValues_self]

theorem CounterVec.counter_value_Inc_ne (c : CounterVec) {lvs other : Labels}
    (hne : other ≠ lvs) :
    (c.Inc lvs).value other = c.value other := by
  simp [CounterVec.Inc, CounterVec.value, MetricVec.child_withLabelValues_ne _ _ _ hne]

theorem CounterVec.counter_total_Inc (c : CounterVec) (lvs : Labels) :
    (c.Inc lvs).total = c.total + 1 := by
  induction c with
  | nil => simp [CounterVec.Inc, CounterVec.total, MetricVec.withLabelValues]
  | cons p rest ih =>
    obtain ⟨k, v⟩ := p
    by_cases hk : k = lvs
    · simp [CounterVec.Inc, CounterVec.total, MetricVec.withLabelValues, hk]
      omega
    · simp only [CounterVec.Inc, CounterVec.total] at ih
      simp [CounterVec.Inc, CounterVec.total, MetricVec.withLabelValues, hk, ih]
      omega

theorem GaugeVec.gauge_value_Inc_self (g : GaugeVec) (lvs : Labels) :
    (g.Inc lvs).value lvs = g.value lvs + 1 := by
  simp [GaugeVec.Inc, GaugeVec.value, MetricVec.child_withLabelValues_self]

theorem GaugeVec.gauge_value_Inc_ne (g : GaugeVec) {lvs other : Labels} (hne : other ≠ lvs) :
    (g.Inc lvs).value other = g.value other := by
  simp [GaugeVec.Inc, GaugeVec.value, MetricVec.child_withLabelValues_ne _ _ _ hne]

theorem GaugeVec.gauge_total_Inc (g : GaugeVec) (lvs : Labels) :
    (g.Inc lvs).total = g.total + 1 := by
  induction g with
  | nil => simp [GaugeVec.Inc, GaugeVec.total, MetricVec.withLabelValues]
  | cons p rest ih =>
    obtain ⟨k, v⟩ := p
    by_cases hk : k = lvs
    · simp [GaugeVec.Inc, GaugeVec.total, MetricVec.withLabelValues, hk]
      omega
    · simp only [GaugeVec.Inc, GaugeVec.total] at ih
      simp [GaugeVec.Inc, GaugeVec.total, MetricVec.withLabelValues, hk, ih]
      omega

theorem HistogramVec.observations_Observe_self (h : HistogramVec) (lvs : Labels) (d : Int) :
    (h.Observe lvs d).observations lvs = h.observations lvs ++ [d] := by
  simp [HistogramVec.Observe, HistogramVec.observations, MetricVec.child_withLabelValues_self]

theorem HistogramVec.observations_Observe_ne (h : HistogramVec) {lvs other : Labels} (d : Int)
    (hne : other ≠ lvs) :
    (h.Observe lvs d).observations other = h.observations other := by
  simp [HistogramVec.Observe, HistogramVec.observations,
    MetricVec.child_withLabelValues_ne _ _ _ hne]

/-! ## The four return paths of `Reconcile` -/

section Paths

variable (now : W → Int) (r : NewResourceReconciler W ε μ σ τ) (req : Request)
  (s : State W μ σ τ)

/-- Path 1: `Get` fails with a not-found error. -/
theorem Reconcile_not_found {e : ε}
    (hget : (r.Get req.NamespacedName s.World).1 = Except.error e)
    (hnf : r.IsNotFound e = true) :
    Reconcile now r req s =
      ((Result.empty, none),
       { World := (r.Get req.NamespacedName s.World).2
         Metrics :=
          { ReconcileTotal := s.Metrics.ReconcileTotal.Inc ["newresource", "not_found"]
            ReconcileDuration := s.Metrics.ReconcileDuration.Observe ["newresource"]
              (now (r.Get req.NamespacedName s.World).2 - now s.World)
            ReconcileErrors := s.Metrics.ReconcileErrors
            ResourcesReady := s.Metrics.ResourcesReady }
         Log := s.Log
         Calls := s.Calls ++ [Call.Get req.NamespacedName] }) := by
  simp [Reconcile, reconcileBody, hget, IgnoreNotFound, hnf]

/-- Path 2: `Get` fails with another error. -/
theorem Reconcile_get_error {e : ε}
    (hget : (r.Get req.NamespacedName s.World).1 = Except.error e)
    (hnf : r.IsNotFound e = false) :
    Reconcile now r req s =
      ((Result.empty, some e),
       { World := (r.Get req.NamespacedName s.World).2
         Metrics :=
          { ReconcileTotal := s.Metrics.ReconcileTotal.Inc ["newresource", "error"]
            ReconcileDuration := s.Metrics.ReconcileDuration.Observe ["newresource"]
              (now (r.Get req.NamespacedName s.World).2 - now s.World)
            ReconcileErrors := s.Metrics.ReconcileErrors.Inc ["newresource", "get_error"]
            ResourcesReady := s.Metrics.ResourcesReady }
         Log := s.Log
         Calls := s.Calls ++ [Call.Get req.NamespacedName] }) := by
  simp [Reconcile, reconcileBody, hget, IgnoreNotFound, hnf]

/-- Path 3: `Get` succeeds and the status update fails. -/
theorem Reconcile_status_update_error {R : NewResource μ σ τ} {e : ε}
    (hget : (r.Get req.NamespacedName s.World).1 = Except.ok R)
    (hupd : (r.StatusUpdate R.markReady (r.Get req.NamespacedName s.World).2).1
      = Except.error e) :
    Reconcile now r req s =
      ((Result.empty, some e),
       { World := (r.StatusUpdate R.markReady (r.Get req.NamespacedName s.World).2).2
         Metrics :=
          { ReconcileTotal := s.Metrics.ReconcileTotal.Inc ["newresource", "error"]
            ReconcileDuration := s.Metrics.ReconcileDuration.Observe ["newresource"]
              (now (r.StatusUpdate R.markReady (r.Get req.NamespacedName s.World).2).2
                - now s.World)
            ReconcileErrors :=
              s.Metrics.ReconcileErrors.Inc ["newresource", "status_update_error"]
            ResourcesReady := s.Metrics.ResourcesReady }
         Log := s.Log ++
          [⟨"Reconciling", [("name", R.Name), ("namespace", R.Namespace)]⟩]
         Calls := s.Calls ++
          [Call.Get req.NamespacedName, Call.StatusUpdate R.markReady] }) := by
  simp [Reconcile, reconcileBody, hget, hupd]

/-- Path 4: `Get` and the status update both succeed; `R'` is the object the
update wrote back. -/
theorem Reconcile_success {R R' : NewResource μ σ τ}
    (hget : (r.Get req.NamespacedName s.World).1 = Except.ok R)
    (hupd : (r.StatusUpdate R.markReady (r.Get req.NamespacedName s.World).2).1
      = Except.ok R') :
    Reconcile now r req s =
      ((Result.empty, none),
       { World := (r.StatusUpdate R.markReady (r.Get req.NamespacedName s.World).2).2
         Metrics :=
          { ReconcileTotal := s.Metrics.ReconcileTotal.Inc ["newresource", "success"]
            ReconcileDuration := s.Metrics.ReconcileDuration.Observe ["newresource"]
              (now (r.StatusUpdate R.markReady (r.Get req.NamespacedName s.World).2).2
                - now s.World)
            ReconcileErrors := s.Metrics.ReconcileErrors
            ResourcesReady := s.Metrics.ResourcesReady.Inc [R'.Namespace] }
         Log := s.Log ++
          [⟨"Reconciling", [("name", R.Name), ("namespace", R.Namespace)]⟩]
         Calls := s.Calls ++
          [Call.Get req.NamespacedName, Call.StatusUpdate R.markReady] }) := by
  simp [Reconcile, reconcileBody, hget, hupd]

end Paths

/-! ## The contract of `Reconcile` -/

section Contract

variable (now : W → Int) (r : NewResourceReconciler W ε μ σ τ) (req : Request)
  (s : State W μ σ τ)

/-- One invocation leaves a child of the `resources_ready` gauge as it was or
raises it by 1. -/
theorem ResourcesReady_step (lvs : Labels) :
    (Reconcile now r req s).2.Metrics.ResourcesReady.value lvs
        = s.Metrics.ResourcesReady.value lvs ∨
      (Reconcile now r req s).2.Metrics.ResourcesReady.value lvs
        = s.Metrics.ResourcesReady.value lvs + 1 := by
  cases hget : (r.Get req.NamespacedName s.World).1 with
  | error e =>
    cases hnf : r.IsNotFound e with
    | true => rw [Reconcile_not_found now r req s hget hnf]; exact Or.inl rfl
    | false => rw [Reconcile_get_error now r req s hget hnf]; exact Or.inl rfl
  | ok R =>
    cases hupd : (r.StatusUpdate R.markReady (r.Get req.NamespacedName s.World).2).1 with
    | error e => rw [Reconcile_status_update_error now r req s hget hupd]; exact Or.inl rfl
    | ok R' =>
      rw [Reconcile_success now r req s hget hupd]
      by_cases hl : lvs = [R'.Namespace]
      · right
        subst hl
        exact GaugeVec.gauge_value_Inc_self _ _
      · left
        exact GaugeVec.gauge_value_Inc_ne _ hl

/-- A run over `done ++ rest` is the run over `rest` started where the run over
`done` stopped. -/
theorem reconcileAll_append (done rest : List Request) (s : State W μ σ τ) :
    reconcileAll now r (done ++ rest) s = reconcileAll now r rest (reconcileAll now r done s) := by
  induction done generalizing s with
  | nil => rfl
  | cons req done ih => simp [reconcileAll, ih]

/-- A run never lowers a child of the `resources_ready` gauge. -/
theorem ResourcesReady_run_le (reqs : List Request) (s : State W μ σ τ) (lvs : Labels) :
    s.Metrics.ResourcesReady.value lvs
      ≤ (reconcileAll now r reqs s).Metrics.ResourcesReady.value lvs := by
  induction reqs generalizing s with
  | nil => exact le_refl _
  | cons req reqs ih =>
    have hstep := ResourcesReady_step now r req s lvs
    have hrest := ih (Reconcile now r req s).2
    simp only [reconcileAll]
    omega

/-- C1: when `Get` fails with a not-found error, `Reconcile` returns the empty
(no requeue) result with a nil error, raises
`reconcile_total{controller=newresource,result=not_found}` by exactly 1, and
leaves every child of the `resources_ready` gauge as it was. -/
theorem Reconcile_not_found_contract (e : ε)
    (hget : (r.Get req.NamespacedName s.World).1 = Except.error e)
    (hnf : r.IsNotFound e = true) :
    (Reconcile now r req s).1 = ({ Requeue := false, RequeueAfter := 0 }, none) ∧
    (Reconcile now r req s).2.Metrics.ReconcileTotal.value ["newresource", "not_found"]
      = s.Metrics.ReconcileTotal.value ["newresource", "not_found"] + 1 ∧
    (∀ lvs : Labels, (Reconcile now r req s).2.Metrics.ResourcesReady.value lvs
      = s.Metrics.ResourcesReady.value lvs) := by
  rw [Reconcile_not_found now r req s hget hnf]
  exact ⟨rfl, CounterVec.counter_value_Inc_self _ _, fun _ => rfl⟩

/-- C2 (amended): when `Get` returns `R` and the status update succeeds, handing
back the object `R'`, `Reconcile` returns the no-requeue result with a nil
error, raises `reconcile_total{result=success}` by exactly 1, raises
`resources_ready{namespace=R'.Namespace}` by exactly 1 and leaves every other
child of that gauge as it was, so that `resources_ready{namespace=R.Namespace}`
goes up by exactly 1 whenever the update hands the object back in the namespace
of `R`; the one object handed to the status update has `Status.Ready = true`. -/
theorem Reconcile_success_contract (R R' : NewResource μ σ τ)
    (hget : (r.Get req.NamespacedName s.World).1 = Except.ok R)
    (hupd : (r.StatusUpdate R.markReady (r.Get req.NamespacedName s.World).2).1
      = Except.ok R') :
    (Reconcile now r req s).1 = ({ Requeue := false, RequeueAfter := 0 }, none) ∧
    (Reconcile now r req s).2.Metrics.ReconcileTotal.value ["newresource", "success"]
      = s.Metrics.ReconcileTotal.value ["newresource", "success"] + 1 ∧
    (Reconcile now r req s).2.Metrics.ResourcesReady.value [R'.Namespace]
      = s.Metrics.ResourcesReady.value [R'.Namespace] + 1 ∧
    (∀ lvs : Labels, lvs ≠ [R'.Namespace] →
      (Reconcile now r req s).2.Metrics.ResourcesReady.value lvs
        = s.Metrics.ResourcesReady.value lvs) ∧
    (R'.Namespace = R.Namespace →
      (Reconcile now r req s).2.Metrics.ResourcesReady.value [R.Namespace]
        = s.Metrics.ResourcesReady.value [R.Namespace] + 1) ∧
    (∃ obj : NewResource μ σ τ,
      (Reconcile now r req s).2.Calls
        = s.Calls ++ [Call.Get req.NamespacedName, Call.StatusUpdate obj] ∧
      (Reconcile now r req s).2.World
        = (r.StatusUpdate obj (r.Get req.NamespacedName s.World).2).2 ∧
      obj.Status.Ready = true) := by
  rw [Reconcile_success now r req s hget hupd]
  refine ⟨rfl, CounterVec.counter_value_Inc_self _ _, GaugeVec.gauge_value_Inc_self _ _,
    fun _ hne => GaugeVec.gauge_value_Inc_ne _ hne, fun hns => ?_, R.markReady, rfl, rfl, rfl⟩
  rw [← hns]
  exact GaugeVec.gauge_value_Inc_self _ _

/-- C3: when `Get` fails with an error `e` that is not a not-found error,
`Reconcile` returns exactly `e`, raises
`reconcile_errors_total{error_type=get_error}` by 1 and
`reconcile_total{result=error}` by 1, and makes no status update: the only call
on the collaborator is the `Get`, and the world is the one `Get` left. -/
theorem Reconcile_get_error_contract (e : ε)
    (hget : (r.Get req.NamespacedName s.World).1 = Except.error e)
    (hnf : r.IsNotFound e = false) :
    (Reconcile now r req s).1 = ({ Requeue := false, RequeueAfter := 0 }, some e) ∧
    (Reconcile now r req s).2.Metrics.ReconcileErrors.value ["newresource", "get_error"]
      = s.Metrics.ReconcileErrors.value ["newresource", "get_error"] + 1 ∧
    (Reconcile now r req s).2.Metrics.ReconcileTotal.value ["newresource", "error"]
      = s.Metrics.ReconcileTotal.value ["newresource", "error"] + 1 ∧
    (Reconcile now r req s).2.Calls = s.Calls ++ [Call.Get req.NamespacedName] ∧
    (Reconcile now r req s).2.World = (r.Get req.NamespacedName s.World).2 := by
  rw [Reconcile_get_error now r req s hget hnf]
  exact ⟨rfl, CounterVec.counter_value_Inc_self _ _, CounterVec.counter_value_Inc_self _ _,
    rfl, rfl⟩

/-- C4: when `Get` returns `R` and the status update fails with `e`, `Reconcile`
returns exactly `e`, raises
`reconcile_errors_total{error_type=status_update_error}` by 1 and
`reconcile_total{result=error}` by 1, and leaves every child of the
`resources_ready` gauge and the counter `reconcile_total{result=success}` as
they were. -/
theorem Reconcile_status_update_error_contract (R : NewResource μ σ τ) (e : ε)
    (hget : (r.Get req.NamespacedName s.World).1 = Except.ok R)
    (hupd : (r.StatusUpdate R.markReady (r.Get req.NamespacedName s.World).2).1
      = Except.error e) :
    (Reconcile now r req s).1 = ({ Requeue := false, RequeueAfter := 0 }, some e) ∧
    (Reconcile now r req s).2.Metrics.ReconcileErrors.value
        ["newresource", "status_update_error"]
      = s.Metrics.ReconcileErrors.value ["newresource", "status_update_error"] + 1 ∧
    (Reconcile now r req s).2.Metrics.ReconcileTotal.value ["newresource", "error"]
      = s.Metrics.ReconcileTotal.value ["newresource", "error"] + 1 ∧
    (∀ lvs : Labels, (Reconcile now r req s).2.Metrics.ResourcesReady.value lvs
      = s.Metrics.ResourcesReady.value lvs) ∧
    (Reconcile now r req s).2.Metrics.ReconcileTotal.value ["newresource", "success"]
      = s.Metrics.ReconcileTotal.value ["newresource", "success"] := by
  rw [Reconcile_status_update_error now r req s hget hupd]
  exact ⟨rfl, CounterVec.counter_value_Inc_self _ _, CounterVec.counter_value_Inc_self _ _,
    fun _ => rfl, CounterVec.counter_value_Inc_ne _ (by decide)⟩

/-- The deferred function is the only writer of the duration histogram: an
invocation adds one observation to the child `newresource`. -/
theorem ReconcileDuration_step :
    ∃ d : Int, (Reconcile now r req s).2.Metrics.ReconcileDuration
      = s.Metrics.ReconcileDuration.Observe ["newresource"] d := by
  cases hget : (r.Get req.NamespacedName s.World).1 with
  | error e =>
    cases hnf : r.IsNotFound e with
    | true => rw [Reconcile_not_found now r req s hget hnf]; exact ⟨_, rfl⟩
    | false => rw [Reconcile_get_error now r req s hget hnf]; exact ⟨_, rfl⟩
  | ok R =>
    cases hupd : (r.StatusUpdate R.markReady (r.Get req.NamespacedName s.World).2).1 with
    | error e => rw [Reconcile_status_update_error now r req s hget hupd]; exact ⟨_, rfl⟩
    | ok R' => rw [Reconcile_success now r req s hget hupd]; exact ⟨_, rfl⟩

/-- C5: every invocation of `Reconcile`, whatever the collaborator does, adds
exactly one observation to the child `controller=newresource` of the
`reconcile_duration_seconds` histogram and none to any other child. -/
theorem Reconcile_observes_duration_once :
    (∃ d : Int, (Reconcile now r req s).2.Metrics.ReconcileDuration.observations ["newresource"]
      = s.Metrics.ReconcileDuration.observations ["newresource"] ++ [d]) ∧
    (Reconcile now r req s).2.Metrics.ReconcileDuration.count ["newresource"]
      = s.Metrics.ReconcileDuration.count ["newresource"] + 1 ∧
    (∀ lvs : Labels, lvs ≠ ["newresource"] →
      (Reconcile now r req s).2.Metrics.ReconcileDuration.observations lvs
        = s.Metrics.ReconcileDuration.observations lvs) := by
  obtain ⟨d, hd⟩ := ReconcileDuration_step now r req s
  rw [hd]
  refine ⟨⟨d, HistogramVec.observations_Observe_self _ _ _⟩, ?_, ?_⟩
  · simp [HistogramVec.count, HistogramVec.observations_Observe_self]
  · intro lvs hne
    exact HistogramVec.observations_Observe_ne _ _ hne

/-- C6: for every invocation of `Reconcile` and every collaborator, the sum of
`reconcile_total` over all its children goes up by exactly 1, the sum of
`reconcile_errors_total` by 0 or 1, and the sum of `resources_ready` by 0 or 1. -/
theorem Reconcile_metric_sums :
    (Reconcile now r req s).2.Metrics.ReconcileTotal.total
      = s.Metrics.ReconcileTotal.total + 1 ∧
    ((Reconcile now r req s).2.Metrics.ReconcileErrors.total
        = s.Metrics.ReconcileErrors.total ∨
      (Reconcile now r req s).2.Metrics.ReconcileErrors.total
        = s.Metrics.ReconcileErrors.total + 1) ∧
    ((Reconcile now r req s).2.Metrics.ResourcesReady.total
        = s.Metrics.ResourcesReady.total ∨
      (Reconcile now r req s).2.Metrics.ResourcesReady.total
        = s.Metrics.ResourcesReady.total + 1) := by
  cases hget : (r.Get req.NamespacedName s.World).1 with
  | error e =>
    cases hnf : r.IsNotFound e with
    | true =>
      rw [Reconcile_not_found now r req s hget hnf]
      exact ⟨CounterVec.counter_total_Inc _ _, Or.inl rfl, Or.inl rfl⟩
    | false =>
      rw [Reconcile_get_error now r req s hget hnf]
      exact ⟨CounterVec.counter_total_Inc _ _, Or.inr (CounterVec.counter_total_Inc _ _),
        Or.inl rfl⟩
  | ok R =>
    cases hupd : (r.StatusUpdate R.markReady (r.Get req.NamespacedName s.World).2).1 with
    | error e =>
      rw [Reconcile_status_update_error now r req s hget hupd]
      exact ⟨CounterVec.counter_total_Inc _ _, Or.inr (CounterVec.counter_total_Inc _ _),
        Or.inl rfl⟩
    | ok R' =>
      rw [Reconcile_success now r req s hget hupd]
      exact ⟨CounterVec.counter_total_Inc _ _, Or.inl rfl,
        Or.inr (GaugeVec.gauge_total_Inc _ _)⟩

/-- C7: when `Get` returns `R`, the one object `Reconcile` hands to the status
update is `R` with `Status.Ready` set: same name, namespace, metadata, `Spec`
and remaining status. When `Get` fails, with a not-found error or another one,
no status update is made: the only call is the `Get` and the world is the one
`Get` left. -/
theorem Reconcile_frame :
    (∀ R : NewResource μ σ τ, (r.Get req.NamespacedName s.World).1 = Except.ok R →
      ∃ obj : NewResource μ σ τ,
        (Reconcile now r req s).2.Calls
          = s.Calls ++ [Call.Get req.NamespacedName, Call.StatusUpdate obj] ∧
        (Reconcile now r req s).2.World
          = (r.StatusUpdate obj (r.Get req.NamespacedName s.World).2).2 ∧
        obj.Spec = R.Spec ∧ obj.Name = R.Name ∧ obj.Namespace = R.Namespace ∧
        obj.Meta = R.Meta ∧ obj.Status.Rest = R.Status.Rest ∧
        obj = { R with Status := { R.Status with Ready := true } }) ∧
    (∀ e : ε, (r.Get req.NamespacedName s.World).1 = Except.error e →
      (Reconcile now r req s).2.Calls = s.Calls ++ [Call.Get req.NamespacedName] ∧
      (Reconcile now r req s).2.World = (r.Get req.NamespacedName s.World).2) := by
  constructor
  · intro R hget
    refine ⟨R.markReady, ?_⟩
    cases hupd : (r.StatusUpdate R.markReady (r.Get req.NamespacedName s.World).2).1 with
    | error e =>
      rw [Reconcile_status_update_error now r req s hget hupd]
      exact ⟨rfl, rfl, rfl, rfl, rfl, rfl, rfl, rfl⟩
    | ok R' =>
      rw [Reconcile_success now r req s hget hupd]
      exact ⟨rfl, rfl, rfl, rfl, rfl, rfl, rfl, rfl⟩
  · intro e hget
    cases hnf : r.IsNotFound e with
    | true => rw [Reconcile_not_found now r req s hget hnf]; exact ⟨rfl, rfl⟩
    | false => rw [Reconcile_get_error now r req s hget hnf]; exact ⟨rfl, rfl⟩

/-- C8 (amended): when `Get` fails with an error other than not-found,
`Reconcile` raises `reconcile_errors_total` by 1 under the label values
`controller=newresource`, `error_type=get_error`, and leaves every other child
of that counter, `error_type=fetch_error` among them, as it was. -/
theorem Reconcile_get_error_label (e : ε)
    (hget : (r.Get req.NamespacedName s.World).1 = Except.error e)
    (hnf : r.IsNotFound e = false) :
    (Reconcile now r req s).2.Metrics.ReconcileErrors.value ["newresource", "get_error"]
      = s.Metrics.ReconcileErrors.value ["newresource", "get_error"] + 1 ∧
    (∀ lvs : Labels, lvs ≠ ["newresource", "get_error"] →
      (Reconcile now r req s).2.Metrics.ReconcileErrors.value lvs
        = s.Metrics.ReconcileErrors.value lvs) ∧
    (Reconcile now r req s).2.Metrics.ReconcileErrors.value ["newresource", "fetch_error"]
      = s.Metrics.ReconcileErrors.value ["newresource", "fetch_error"] := by
  rw [Reconcile_get_error now r req s hget hnf]
  exact ⟨CounterVec.counter_value_Inc_self _ _,
    fun _ hne => CounterVec.counter_value_Inc_ne _ hne,
    CounterVec.counter_value_Inc_ne _ (by decide)⟩

/-- C10: for every namespace, one invocation of `Reconcile` leaves
`resources_ready{namespace}` as it was or raises it by 1, whatever the
collaborator does (a deleted resource included), and along every sequence of
invocations the value never goes down: it is at least as large after
`done ++ rest` as after `done`. -/
theorem ResourcesReady_never_decreases (ns : String) :
    (∀ (req : Request) (s : State W μ σ τ),
      (Reconcile now r req s).2.Metrics.ResourcesReady.value [ns]
          = s.Metrics.ResourcesReady.value [ns] ∨
        (Reconcile now r req s).2.Metrics.ResourcesReady.value [ns]
          = s.Metrics.ResourcesReady.value [ns] + 1) ∧
    (∀ (done rest : List Request) (s : State W μ σ τ),
      (reconcileAll now r done s).Metrics.ResourcesReady.value [ns]
        ≤ (reconcileAll now r (done ++ rest) s).Metrics.ResourcesReady.value [ns]) := by
  refine ⟨fun req s => ResourcesReady_step now r req s [ns], fun done rest s => ?_⟩
  rw [reconcileAll_append]
  exact ResourcesReady_run_le now r rest _ [ns]

/-- The pair returned by `Reconcile` and the world it leaves depend on the
state only through the world. -/
theorem Reconcile_congr_world (t : State W μ σ τ) (hw : s.World = t.World) :
    (Reconcile now r req s).1 = (Reconcile now r req t).1 ∧
    (Reconcile now r req s).2.World = (Reconcile now r req t).2.World := by
  cases hget : (r.Get req.NamespacedName s.World).1 with
  | error e =>
    have hget' := hget
    rw [hw] at hget'
    cases hnf : r.IsNotFound e with
    | true =>
      rw [Reconcile_not_found now r req s hget hnf, Reconcile_not_found now r req t hget' hnf, hw]
      exact ⟨rfl, rfl⟩
    | false =>
      rw [Reconcile_get_error now r req s hget hnf, Reconcile_get_error now r req t hget' hnf, hw]
      exact ⟨rfl, rfl⟩
  | ok R =>
    have hget' := hget
    rw [hw] at hget'
    cases hupd : (r.StatusUpdate R.markReady (r.Get req.NamespacedName s.World).2).1 with
    | error e =>
      have hupd' := hupd
      rw [hw] at hupd'
      rw [Reconcile_status_update_error now r req s hget hupd,
        Reconcile_status_update_error now r req t hget' hupd', hw]
      exact ⟨rfl, rfl⟩
    | ok R' =>
      have hupd' := hupd
      rw [hw] at hupd'
      rw [Reconcile_success now r req s hget hupd,
        Reconcile_success now r req t hget' hupd', hw]
      exact ⟨rfl, rfl⟩

end Contract

/-! ## The store model -/

section StoreModel

variable (f : Faults ε μ σ τ)

theorem replaceWith_replaceWith (obj x : NewResource μ σ τ) :
    replaceWith obj (replaceWith obj x) = replaceWith obj x := by
  by_cases h : hasKey obj.key x = true
  · simp [replaceWith, h]
  · simp [replaceWith, h]

theorem map_replaceWith_idem (obj : NewResource μ σ τ) (st : Store μ σ τ) :
    (st.map (replaceWith obj)).map (replaceWith obj) = st.map (replaceWith obj) := by
  simp [List.map_map, Function.comp_def, replaceWith_replaceWith]

theorem find_map_replaceWith {key : NamespacedName} {obj R : NewResource μ σ τ}
    (hk : obj.key = key) (st : Store μ σ τ)
    (hfind : st.find? (hasKey key) = some R) :
    (st.map (replaceWith obj)).find? (hasKey key) = some obj := by
  induction st with
  | nil => simp at hfind
  | cons x xs ih =>
    by_cases hx : hasKey key x = true
    · have hobj : hasKey key obj = true := by simp [hasKey, hk]
      simp [replaceWith, hk, hx, hobj]
    · have hx' : hasKey key x = false := by simpa using hx
      rw [List.find?_cons, hx'] at hfind
      simp [replaceWith, hk, hx', ih hfind]

theorem any_of_find {p : NewResource μ σ τ → Bool} {R : NewResource μ σ τ}
    (st : Store μ σ τ) (hfind : st.find? p = some R) : st.any p = true := by
  rw [List.any_eq_true]
  exact ⟨R, List.mem_of_find?_eq_some hfind, List.find?_some hfind⟩

theorem storeGet_world (key : NamespacedName) (st : Store μ σ τ) :
    (storeGet f key st).2 = st := by
  unfold storeGet
  split
  · rfl
  · split <;> rfl

theorem storeGet_ok {key : NamespacedName} {st : Store μ σ τ} {R : NewResource μ σ τ}
    (h : (storeGet f key st).1 = Except.ok R) :
    f.GetFault key = none ∧ st.find? (hasKey key) = some R := by
  unfold storeGet at h
  split at h
  · simp at h
  · rename_i hfault
    split at h
    · rename_i x hx
      simp at h
      subst h
      exact ⟨hfault, hx⟩
    · simp at h

theorem storeGet_of_find {key : NamespacedName} {st : Store μ σ τ} {R : NewResource μ σ τ}
    (hfault : f.GetFault key = none) (hfind : st.find? (hasKey key) = some R) :
    (storeGet f key st).1 = Except.ok R := by
  simp [storeGet, hfault, hfind]

theorem storeStatusUpdate_error {obj : NewResource μ σ τ} {st : Store μ σ τ} {e : ε}
    (h : (storeStatusUpdate f obj st).1 = Except.error e) :
    (storeStatusUpdate f obj st).2 = st := by
  unfold storeStatusUpdate at h ⊢
  split
  · rfl
  · rename_i hfault
    rw [hfault] at h
    by_cases hany : st.any (hasKey obj.key) = true
    · simp [hany] at h
    · simp [hany]

theorem storeStatusUpdate_ok {obj R' : NewResource μ σ τ} {st : Store μ σ τ}
    (h : (storeStatusUpdate f obj st).1 = Except.ok R') :
    f.UpdateFault obj = none ∧ R' = obj ∧
      (storeStatusUpdate f obj st).2 = st.map (replaceWith obj) := by
  unfold storeStatusUpdate at h ⊢
  split at h
  · simp at h
  · rename_i hfault
    by_cases hany : st.any (hasKey obj.key) = true
    · simp only [hany, if_true] at h
      simp only [Except.ok.injEq] at h
      refine ⟨hfault, h.symm, ?_⟩
      simp [hfault, hany]
    · simp [hany] at h

theorem storeStatusUpdate_of_any {obj : NewResource μ σ τ} {st : Store μ σ τ}
    (hfault : f.UpdateFault obj = none) (hany : st.any (hasKey obj.key) = true) :
    storeStatusUpdate f obj st = (Except.ok obj, st.map (replaceWith obj)) := by
  simp [storeStatusUpdate, hfault, hany]

/-- C9: over the store model (`Get` returns the stored object, a successful
status update replaces it, failures are a function of the request), invoking
`Reconcile` for the same identity twice in succession, nothing else touching
the store in between, returns the same `(result, error)` pair both times and
leaves the store as one invocation leaves it. -/
theorem Reconcile_idempotent_on_store (now : Store μ σ τ → Int) (req : Request)
    (s : State (Store μ σ τ) μ σ τ) :
    (Reconcile now (storeReconciler f) req (Reconcile now (storeReconciler f) req s).2).1
      = (Reconcile now (storeReconciler f) req s).1 ∧
    (Reconcile now (storeReconciler f) req (Reconcile now (storeReconciler f) req s).2).2.World
      = (Reconcile now (storeReconciler f) req s).2.World := by
  have hgw : ((storeReconciler f).Get req.NamespacedName s.World).2 = s.World :=
    storeGet_world f _ _
  -- when the first invocation leaves the store as it was, the second repeats it
  have same : (Reconcile now (storeReconciler f) req s).2.World = s.World →
      (Reconcile now (storeReconciler f) req (Reconcile now (storeReconciler f) req s).2).1
        = (Reconcile now (storeReconciler f) req s).1 ∧
      (Reconcile now (storeReconciler f) req
          (Reconcile now (storeReconciler f) req s).2).2.World
        = (Reconcile now (storeReconciler f) req s).2.World := fun hw =>
    Reconcile_congr_world now (storeReconciler f) req _ s hw
  cases hget : ((storeReconciler f).Get req.NamespacedName s.World).1 with
  | error e =>
    apply same
    cases hnf : (storeReconciler f).IsNotFound e with
    | true => rw [Reconcile_not_found now _ req s hget hnf]; exact hgw
    | false => rw [Reconcile_get_error now _ req s hget hnf]; exact hgw
  | ok R =>
    cases hupd : ((storeReconciler f).StatusUpdate R.markReady
        ((storeReconciler f).Get req.NamespacedName s.World).2).1 with
    | error e =>
      apply same
      rw [Reconcile_status_update_error now _ req s hget hupd]
      show ((storeReconciler f).StatusUpdate R.markReady
        ((storeReconciler f).Get req.NamespacedName s.World).2).2 = s.World
      have h2 := storeStatusUpdate_error f hupd
      rw [hgw] at h2 ⊢
      exact h2
    | ok R' =>
      obtain ⟨hgf, hfind⟩ := storeGet_ok f hget
      obtain ⟨huf, hR', hst⟩ := storeStatusUpdate_ok f hupd
      have hst' : ((storeReconciler f).StatusUpdate R.markReady
          ((storeReconciler f).Get req.NamespacedName s.World).2).2
            = s.World.map (replaceWith R.markReady) := by
        have := hst
        rw [hgw] at this ⊢
        exact this
      have hkey : R.markReady.key = req.NamespacedName := by
        have := List.find?_some hfind
        simpa [hasKey, NewResource.key, NewResource.markReady] using this
      have hfind2 := find_map_replaceWith hkey s.World hfind
      have h1 := Reconcile_success now (storeReconciler f) req s hget hupd
      -- the second invocation, from the state the first one left
      have hw1 : (Reconcile now (storeReconciler f) req s).2.World
          = s.World.map (replaceWith R.markReady) := by rw [h1]; exact hst'
      have hget2 : ((storeReconciler f).Get req.NamespacedName
          (Reconcile now (storeReconciler f) req s).2.World).1 = Except.ok R.markReady := by
        rw [hw1]
        exact storeGet_of_find f hgf hfind2
      have hupd2full : (storeReconciler f).StatusUpdate R.markReady.markReady
          ((storeReconciler f).Get req.NamespacedName
            (Reconcile now (storeReconciler f) req s).2.World).2
          = (Except.ok R.markReady,
              (s.World.map (replaceWith R.markReady)).map (replaceWith R.markReady)) := by
        have hgw2 : ((storeReconciler f).Get req.NamespacedName
            (Reconcile now (storeReconciler f) req s).2.World).2
            = (Reconcile now (storeReconciler f) req s).2.World := storeGet_world f _ _
        rw [hgw2, hw1]
        refine storeStatusUpdate_of_any f huf ?_
        show (s.World.map (replaceWith R.markReady)).any (hasKey R.markReady.key) = true
        rw [hkey]
        exact any_of_find _ hfind2
      have hupd2 : ((storeReconciler f).StatusUpdate R.markReady.markReady
          ((storeReconciler f).Get req.NamespacedName
            (Reconcile now (storeReconciler f) req s).2.World).2).1
          = Except.ok R.markReady := by rw [hupd2full]
      have h2 := Reconcile_success now (storeReconciler f) req
        (Reconcile now (storeReconciler f) req s).2 hget2 hupd2
      constructor
      · rw [h2, h1]
      · rw [h2]
        show ((storeReconciler f).StatusUpdate R.markReady.markReady
          ((storeReconciler f).Get req.NamespacedName
            (Reconcile now (storeReconciler f) req s).2.World).2).2 = _
        rw [hupd2full, map_replaceWith_idem, hw1]

end StoreModel

/-! ## The contract on the example cluster -/

/-- C1 at `default/gone`, which the example cluster does not store. -/
theorem Reconcile_not_found_contract_witness :
    (exampleReconciler.Get requestGone.NamespacedName exampleState.World).1
      = Except.error "not found" ∧
    exampleReconciler.IsNotFound "not found" = true ∧
    ((Reconcile exampleNow exampleReconciler requestGone exampleState).1
      = ({ Requeue := false, RequeueAfter := 0 }, none) ∧
    (Reconcile exampleNow exampleReconciler requestGone exampleState).2.Metrics.ReconcileTotal.value
        ["newresource", "not_found"]
      = exampleState.Metrics.ReconcileTotal.value ["newresource", "not_found"] + 1 ∧
    (∀ lvs : Labels,
      (Reconcile exampleNow exampleReconciler requestGone exampleState).2.Metrics.ResourcesReady.value
          lvs
        = exampleState.Metrics.ResourcesReady.value lvs)) :=
  ⟨rfl, rfl,
    Reconcile_not_found_contract exampleNow exampleReconciler requestGone exampleState
      "not found" rfl rfl⟩

/-- C2 as stated fails for the reconciler whose status update hands the object
back under another namespace: the fetch of `default/foo` and the status update
both succeed, `resources_ready{namespace=default}` is not raised, and the child
raised is `namespace=rewritten`. -/
theorem Reconcile_success_gauge_label_not_fetched :
    (rewritingReconciler.Get requestFoo.NamespacedName exampleState.World).1
      = Except.ok exampleFoo ∧
    (rewritingReconciler.StatusUpdate exampleFoo.markReady
        (rewritingReconciler.Get requestFoo.NamespacedName exampleState.World).2).1
      = Except.ok { exampleFoo.markReady with Namespace := "rewritten" } ∧
    ¬ ((Reconcile exampleNow rewritingReconciler requestFoo exampleState).2.Metrics.ResourcesReady.value
          [exampleFoo.Namespace]
        = exampleState.Metrics.ResourcesReady.value [exampleFoo.Namespace] + 1) ∧
    (Reconcile exampleNow rewritingReconciler requestFoo exampleState).2.Metrics.ResourcesReady
      = [(["rewritten"], 1)] := by
  refine ⟨rfl, rfl, ?_, ?_⟩
  · decide
  · decide

/-- C2 (amended) at `default/foo`: the fetch and the status update succeed, and
the update hands the object back in its own namespace. -/
theorem Reconcile_success_contract_witness :
    (exampleReconciler.Get requestFoo.NamespacedName exampleState.World).1
      = Except.ok exampleFoo ∧
    (exampleReconciler.StatusUpdate exampleFoo.markReady
        (exampleReconciler.Get requestFoo.NamespacedName exampleState.World).2).1
      = Except.ok exampleFoo.markReady ∧
    ((Reconcile exampleNow exampleReconciler requestFoo exampleState).1
      = ({ Requeue := false, RequeueAfter := 0 }, none) ∧
    (Reconcile exampleNow exampleReconciler requestFoo exampleState).2.Metrics.ReconcileTotal.value
        ["newresource", "success"]
      = exampleState.Metrics.ReconcileTotal.value ["newresource", "success"] + 1 ∧
    (Reconcile exampleNow exampleReconciler requestFoo exampleState).2.Metrics.ResourcesReady.value
        [exampleFoo.markReady.Namespace]
      = exampleState.Metrics.ResourcesReady.value [exampleFoo.markReady.Namespace] + 1 ∧
    (∀ lvs : Labels, lvs ≠ [exampleFoo.markReady.Namespace] →
      (Reconcile exampleNow exampleReconciler requestFoo exampleState).2.Metrics.ResourcesReady.value
          lvs
        = exampleState.Metrics.ResourcesReady.value lvs) ∧
    (exampleFoo.markReady.Namespace = exampleFoo.Namespace →
      (Reconcile exampleNow exampleReconciler requestFoo exampleState).2.Metrics.ResourcesReady.value
          [exampleFoo.Namespace]
        = exampleState.Metrics.ResourcesReady.value [exampleFoo.Namespace] + 1) ∧
    (∃ obj : NewResource Unit Nat Unit,
      (Reconcile exampleNow exampleReconciler requestFoo exampleState).2.Calls
        = exampleState.Calls ++ [Call.Get requestFoo.NamespacedName, Call.StatusUpdate obj] ∧
      (Reconcile exampleNow exampleReconciler requestFoo exampleState).2.World
        = (exampleReconciler.StatusUpdate obj
            (exampleReconciler.Get requestFoo.NamespacedName exampleState.World).2).2 ∧
      obj.Status.Ready = true)) :=
  ⟨rfl, rfl,
    Reconcile_success_contract exampleNow exampleReconciler requestFoo exampleState
      exampleFoo exampleFoo.markReady rfl rfl⟩

/-- C3 at `default/broken`, whose fetch times out. -/
theorem Reconcile_get_error_contract_witness :
    (exampleReconciler.Get requestBroken.NamespacedName exampleState.World).1
      = Except.error "timeout" ∧
    exampleReconciler.IsNotFound "timeout" = false ∧
    ((Reconcile exampleNow exampleReconciler requestBroken exampleState).1
      = ({ Requeue := false, RequeueAfter := 0 }, some "timeout") ∧
    (Reconcile exampleNow exampleReconciler requestBroken exampleState).2.Metrics.ReconcileErrors.value
        ["newresource", "get_error"]
      = exampleState.Metrics.ReconcileErrors.value ["newresource", "get_error"] + 1 ∧
    (Reconcile exampleNow exampleReconciler requestBroken exampleState).2.Metrics.ReconcileTotal.value
        ["newresource", "error"]
      = exampleState.Metrics.ReconcileTotal.value ["newresource", "error"] + 1 ∧
    (Reconcile exampleNow exampleReconciler requestBroken exampleState).2.Calls
      = exampleState.Calls ++ [Call.Get requestBroken.NamespacedName] ∧
    (Reconcile exampleNow exampleReconciler requestBroken exampleState).2.World
      = (exampleReconciler.Get requestBroken.NamespacedName exampleState.World).2) :=
  ⟨rfl, rfl,
    Reconcile_get_error_contract exampleNow exampleReconciler requestBroken exampleState
      "timeout" rfl rfl⟩

/-- C4 at `default/locked`, whose status update conflicts. -/
theorem Reconcile_status_update_error_contract_witness :
    (exampleReconciler.Get requestLocked.NamespacedName exampleState.World).1
      = Except.ok exampleLocked ∧
    (exampleReconciler.StatusUpdate exampleLocked.markReady
        (exampleReconciler.Get requestLocked.NamespacedName exampleState.World).2).1
      = Except.error "conflict" ∧
    ((Reconcile exampleNow exampleReconciler requestLocked exampleState).1
      = ({ Requeue := false, RequeueAfter := 0 }, some "conflict") ∧
    (Reconcile exampleNow exampleReconciler requestLocked exampleState).2.Metrics.ReconcileErrors.value
        ["newresource", "status_update_error"]
      = exampleState.Metrics.ReconcileErrors.value ["newresource", "status_update_error"] + 1 ∧
    (Reconcile exampleNow exampleReconciler requestLocked exampleState).2.Metrics.ReconcileTotal.value
        ["newresource", "error"]
      = exampleState.Metrics.ReconcileTotal.value ["newresource", "error"] + 1 ∧
    (∀ lvs : Labels,
      (Reconcile exampleNow exampleReconciler requestLocked exampleState).2.Metrics.ResourcesReady.value
          lvs
        = exampleState.Metrics.ResourcesReady.value lvs) ∧
    (Reconcile exampleNow exampleReconciler requestLocked exampleState).2.Metrics.ReconcileTotal.value
        ["newresource", "success"]
      = exampleState.Metrics.ReconcileTotal.value ["newresource", "success"]) :=
  ⟨rfl, rfl,
    Reconcile_status_update_error_contract exampleNow exampleReconciler requestLocked
      exampleState exampleLocked "conflict" rfl rfl⟩

/-- C7 at `default/foo` (fetched) and at `default/gone` (not found). -/
theorem Reconcile_frame_witness :
    (∃ obj : NewResource Unit Nat Unit,
      (Reconcile exampleNow exampleReconciler requestFoo exampleState).2.Calls
        = exampleState.Calls ++ [Call.Get requestFoo.NamespacedName, Call.StatusUpdate obj] ∧
      (Reconcile exampleNow exampleReconciler requestFoo exampleState).2.World
        = (exampleReconciler.StatusUpdate obj
            (exampleReconciler.Get requestFoo.NamespacedName exampleState.World).2).2 ∧
      obj.Spec = exampleFoo.Spec ∧ obj.Name = exampleFoo.Name ∧
      obj.Namespace = exampleFoo.Namespace ∧ obj.Meta = exampleFoo.Meta ∧
      obj.Status.Rest = exampleFoo.Status.Rest ∧
      obj = { exampleFoo with Status := { exampleFoo.Status with Ready := true } }) ∧
    ((Reconcile exampleNow exampleReconciler requestGone exampleState).2.Calls
        = exampleState.Calls ++ [Call.Get requestGone.NamespacedName] ∧
      (Reconcile exampleNow exampleReconciler requestGone exampleState).2.World
        = (exampleReconciler.Get requestGone.NamespacedName exampleState.World).2) :=
  ⟨(Reconcile_frame exampleNow exampleReconciler requestFoo exampleState).1 exampleFoo rfl,
    (Reconcile_frame exampleNow exampleReconciler requestGone exampleState).2 "not found" rfl⟩

/-- C8 as stated fails at `default/broken`: the fetch fails with the error
`timeout`, which is not a not-found error, and the counter child
`error_type=fetch_error` is not raised; the child raised is
`error_type=get_error`. -/
theorem Reconcile_fetch_error_label_not_raised :
    (exampleReconciler.Get requestBroken.NamespacedName exampleState.World).1
      = Except.error "timeout" ∧
    exampleReconciler.IsNotFound "timeout" = false ∧
    ¬ ((Reconcile exampleNow exampleReconciler requestBroken exampleState).2.Metrics.ReconcileErrors.value
          ["newresource", "fetch_error"]
        = exampleState.Metrics.ReconcileErrors.value ["newresource", "fetch_error"] + 1) ∧
    (Reconcile exampleNow exampleReconciler requestBroken exampleState).2.Metrics.ReconcileErrors
      = [(["newresource", "get_error"], 1)] := by
  refine ⟨rfl, rfl, ?_, ?_⟩
  · decide
  · decide

/-- C8 (amended) at `default/broken`. -/
theorem Reconcile_get_error_label_witness :
    (exampleReconciler.Get requestBroken.NamespacedName exampleState.World).1
      = Except.error "timeout" ∧
    exampleReconciler.IsNotFound "timeout" = false ∧
    ((Reconcile exampleNow exampleReconciler requestBroken exampleState).2.Metrics.ReconcileErrors.value
        ["newresource", "get_error"]
      = exampleState.Metrics.ReconcileErrors.value ["newresource", "get_error"] + 1 ∧
    (∀ lvs : Labels, lvs ≠ ["newresource", "get_error"] →
      (Reconcile exampleNow exampleReconciler requestBroken exampleState).2.Metrics.ReconcileErrors.value
          lvs
        = exampleState.Metrics.ReconcileErrors.value lvs) ∧
    (Reconcile exampleNow exampleReconciler requestBroken exampleState).2.Metrics.ReconcileErrors.value
        ["newresource", "fetch_error"]
      = exampleState.Metrics.ReconcileErrors.value ["newresource", "fetch_error"]) :=
  ⟨rfl, rfl,
    Reconcile_get_error_label exampleNow exampleReconciler requestBroken exampleState
      "timeout" rfl rfl⟩

/-- C9 at `default/foo`: the first invocation changes the store (the object
becomes ready), the second one returns the same pair and leaves that store. -/
theorem Reconcile_idempotent_on_store_witness :
    exampleState.World ≠ [exampleFoo.markReady, exampleLocked] ∧
    (Reconcile exampleNow (storeReconciler exampleFaults) requestFoo exampleState).2.World
      = [exampleFoo.markReady, exampleLocked] ∧
    ((Reconcile exampleNow (storeReconciler exampleFaults) requestFoo
        (Reconcile exampleNow (storeReconciler exampleFaults) requestFoo exampleState).2).1
      = (Reconcile exampleNow (storeReconciler exampleFaults) requestFoo exampleState).1 ∧
    (Reconcile exampleNow (storeReconciler exampleFaults) requestFoo
        (Reconcile exampleNow (storeReconciler exampleFaults) requestFoo exampleState).2).2.World
      = (Reconcile exampleNow (storeReconciler exampleFaults) requestFoo exampleState).2.World) :=
  ⟨by decide, rfl,
    Reconcile_idempotent_on_store exampleFaults exampleNow requestFoo exampleState⟩

/-- C10 on the example cluster: `resources_ready{namespace=default}` is 1 after
the first of three invocations and 2 after all three, the second of which finds
nothing. -/
theorem ResourcesReady_never_decreases_witness :
    (reconcileAll exampleNow exampleReconciler [requestFoo] exampleState).Metrics.ResourcesReady.value
        ["default"] = 1 ∧
    (reconcileAll exampleNow exampleReconciler [requestFoo, requestGone, requestFoo]
        exampleState).Metrics.ResourcesReady.value ["default"] = 2 ∧
    (reconcileAll exampleNow exampleReconciler [requestFoo] exampleState).Metrics.ResourcesReady.value
        ["default"]
      ≤ (reconcileAll exampleNow exampleReconciler ([requestFoo] ++ [requestGone, requestFoo])
          exampleState).Metrics.ResourcesReady.value ["default"] :=
  ⟨by decide, by decide,
    (ResourcesReady_never_decreases exampleNow exampleReconciler "default").2
      [requestFoo] [requestGone, requestFoo] exampleState⟩

end K8sMaster
